import Mathlib

/-!
Verification of the AI orchestration layer of the Thesyn repository:
a shallow embedding of `src/services/geminiService.ts` and the context
construction in the application root, with theorems about the retry
policy, chat history construction, search-source extraction, speech
truncation, PCM decoding, and base64 file encoding.

Remote calls are modelled by an oracle `op : Nat → Except JsError α`
giving the outcome of the n-th invocation of the remote capability;
each service function is embedded as a function of the oracle that
returns a `RunTrace`: the final result, the number of invocations of
the wrapped operation, and the list of backoff delays slept.
-/

namespace Thesyn

/-- JS `s.substring(0, n)`: the first `n` UTF-16 units of `s`. -/
def strTake (s : String) (n : Nat) : String := ⟨s.data.take n⟩

/-- Occurrence of `pat` as a contiguous substring of `l`
(the semantics of JS `String.prototype.includes`). -/
def occursIn (pat : List Char) : List Char → Bool
  | [] => pat.isPrefixOf []
  | c :: rest => pat.isPrefixOf (c :: rest) || occursIn pat rest

/-- JS `s.includes(pat)`. -/
def strIncludes (s pat : String) : Bool := occursIn pat.data s.data

/-- Character-wise lower-casing of a string. -/
def lowerStr (s : String) : String := ⟨s.data.map Char.toLower⟩

/-- A thrown JS error as `retryOperation` inspects it: an optional numeric
`status` field and a `message` string (an absent message is modelled as `""`,
on which `includes` is false for the two non-empty markers tested). -/
structure JsError where
  status : Option Nat
  message : String
deriving DecidableEq, Repr

/-- The transient-failure classifier of `retryOperation`
(`src/services/geminiService.ts`, line 28):
`error?.status === 500 || error?.status === 503 ||
 error.message?.includes('500') || error.message?.includes('Internal error')`. -/
def isRetryable (e : JsError) : Bool :=
  e.status == some 500 || e.status == some 503 ||
    strIncludes e.message "500" || strIncludes e.message "Internal error"

/-- Trace of running a service against the remote-call oracle: the final
outcome, how many times the remote operation was invoked, and the backoff
delays (ms) slept between invocations, in order. -/
structure RunTrace (α : Type) where
  result : Except JsError α
  calls : Nat
  delays : List Nat
deriving Repr

/-- `retryOperation(operation, retries = 3, delay = 1000)`
(`src/services/geminiService.ts`, lines 22–38): try the operation; on an
error, rethrow if the budget is exhausted (`retries <= 0`), otherwise if the
error is retryable sleep `delay`, recurse with `retries - 1` and `delay * 2`,
and otherwise rethrow.  `start` indexes the oracle at the current attempt. -/
def retryOperation {α : Type} (op : Nat → Except JsError α)
    (retries delay start : Nat) : RunTrace α :=
  match op start with
  | .ok a => ⟨.ok a, 1, []⟩
  | .error e =>
    match retries with
    | 0 => ⟨.error e, 1, []⟩
    | r + 1 =>
      if isRetryable e then
        let rest := retryOperation op r (delay * 2) (start + 1)
        ⟨rest.result, rest.calls + 1, delay :: rest.delays⟩
      else ⟨.error e, 1, []⟩

/-- The canonical document representation (`src/types.ts`): a tagged union
with `text`, `pdf` (base64 content), and `url` variants. -/
inductive DocumentContext : Type
  | text (content : String)
  | pdf (content : String)
  | url (content : String)
deriving DecidableEq, Repr

/-- One content part of a request: plain text or inline binary data with a
MIME type (base64 payload). -/
inductive Part : Type
  | text (s : String)
  | inlineData (mimeType : String) (data : String)
deriving DecidableEq, Repr

/-- One turn of a transmitted conversation: a role and a list of parts. -/
structure Content where
  role : String
  parts : List Part
deriving DecidableEq, Repr

/-- The request parts built by `analyzeDocument`
(`src/services/geminiService.ts`, lines 102–116): per context variant, the
document payload followed by the instruction block `prompt`. -/
def analyzeParts (context : DocumentContext) (prompt : String) : List Part :=
  match context with
  | .pdf content => [.inlineData "application/pdf" content, .text prompt]
  | .url content =>
      [.text ("Please read and analyze the research paper at this URL: " ++ content),
       .text prompt]
  | .text content => [.text content, .text prompt]

/-- The synthetic context-seed turn built by `sendChatMessage`
(`src/services/geminiService.ts`, lines 163–186): a user-role turn whose
parts depend on the context variant; for `text` the content is truncated by
`content.substring(0, 30000)`. -/
def chatContextMessage (context : DocumentContext) : Content :=
  match context with
  | .pdf content =>
      ⟨"user", [.text "Here is the research paper to reference:",
                .inlineData "application/pdf" content]⟩
  | .url content =>
      ⟨"user", [.text ("Here is the URL of the research paper to reference: " ++ content)]⟩
  | .text content =>
      ⟨"user", [.text ("Here is the text of the research paper to reference:\n\n" ++
                strTake content 30000)]⟩

/-- The fixed model-role acknowledgment seed turn of `sendChatMessage`. -/
def chatAckMessage : Content :=
  ⟨"model", [.text "I have read the paper. How can I help you?"]⟩

/-- The full message sequence transmitted by one `sendChatMessage` call:
`fullHistory = [contextMessage, ack, ...history]` is passed as the chat
history and `chat.sendMessage({message: newMessage})` appends the new user
turn (`src/services/geminiService.ts`, lines 189–196). -/
def sendChatTransmitted (history : List Content) (newMessage : String)
    (context : DocumentContext) : List Content :=
  [chatContextMessage context, chatAckMessage] ++ history ++
    [⟨"user", [.text newMessage]⟩]

/-- The chat response as `sendChatMessage` sees it: `none` models an absent
`result.text`. -/
structure ChatResponse where
  text : Option String
deriving DecidableEq, Repr

/-- JS truthiness fallback `t || alt` for an optional string. -/
def strOrElse (t : Option String) (alt : String) : String :=
  match t with
  | some s => if s = "" then alt else s
  | none => alt

/-- The result-handling of `sendChatMessage` against the oracle: one remote
call; on success `result.text || "I couldn't generate a response."`; any
failure is swallowed and the fixed apology string is returned
(`src/services/geminiService.ts`, lines 189–197). -/
def sendChatMessageRun (op : Nat → Except JsError ChatResponse) : RunTrace String :=
  match op 0 with
  | .ok r => ⟨.ok (strOrElse r.text "I couldn't generate a response."), 1, []⟩
  | .error _ => ⟨.ok "Sorry, I encountered an error processing your request.", 1, []⟩

/-- A grounding chunk's `web` payload: `title` and `uri` may each be absent. -/
structure WebInfo where
  title : Option String
  uri : Option String
deriving DecidableEq, Repr

/-- One grounding chunk; `web` may be absent. -/
structure GroundingChunk where
  web : Option WebInfo
deriving DecidableEq, Repr

/-- A pushed source entry `{title: chunk.web.title, uri: chunk.web.uri}`:
in JS either field may be `undefined`, so both are optional here. -/
structure SourceEntry where
  title : Option String
  uri : Option String
deriving DecidableEq, Repr

/-- The source-extraction loop of `searchRelatedTopics`
(`src/services/geminiService.ts`, lines 222–231): for each chunk in order,
if `chunk.web` is present push `{title: chunk.web.title, uri: chunk.web.uri}`. -/
def extractSources : List GroundingChunk → List SourceEntry
  | [] => []
  | c :: rest =>
    match c.web with
    | some w => ⟨w.title, w.uri⟩ :: extractSources rest
    | none => extractSources rest

/-- The search response as `searchRelatedTopics` reads it: optional `text`
and the optional chunk list at
`response.candidates?.[0]?.groundingMetadata?.groundingChunks`. -/
structure SearchResponse where
  text : Option String
  chunks : Option (List GroundingChunk)
deriving DecidableEq, Repr

/-- A search result `{text, sources}`. -/
structure SearchResult where
  text : String
  sources : List SourceEntry
deriving DecidableEq, Repr

/-- `searchRelatedTopics` (`src/services/geminiService.ts`, lines 206–238):
one remote call; on success `text = response.text || "No results found."` and
the sources extracted from the chunks (absent chunk list yields `[]`); on any
failure the degraded result `{text: "Search currently unavailable.",
sources: []}` is returned instead of raising. -/
def searchRelatedTopicsRun (op : Nat → Except JsError SearchResponse) :
    RunTrace SearchResult :=
  match op 0 with
  | .ok r =>
      ⟨.ok ⟨strOrElse r.text "No results found.",
            match r.chunks with
            | some cs => extractSources cs
            | none => []⟩, 1, []⟩
  | .error _ => ⟨.ok ⟨"Search currently unavailable.", []⟩, 1, []⟩

/-- The request parts built by `generateSpeech` for input `text`
(`src/services/geminiService.ts`, line 245):
`contents: { parts: [{ text: text.substring(0, 400) }] }`. -/
def generateSpeechParts (text : String) : List Part :=
  [.text (strTake text 400)]

/-- The TTS response as `generateSpeech` reads it: the optional base64 audio
payload at `response.candidates?.[0]?.content?.parts?.[0]?.inlineData?.data`. -/
structure TtsResponse where
  audioData : Option String
deriving DecidableEq, Repr

/-- `generateSpeech` result handling (`src/services/geminiService.ts`,
lines 241–271): one remote call; a missing audio payload becomes a thrown
`"No audio data returned"` error; the catch block logs and rethrows, so every
failure propagates.  The base64 payload is returned as-is (its byte decoding
belongs to the playback path). -/
def generateSpeechRun (op : Nat → Except JsError TtsResponse) : RunTrace String :=
  match op 0 with
  | .ok r =>
    match r.audioData with
    | some d => ⟨.ok d, 1, []⟩
    | none => ⟨.error ⟨none, "No audio data returned"⟩, 1, []⟩
  | .error e => ⟨.error e, 1, []⟩

/-- `transcribeUserAudio` remote-call handling
(`src/services/geminiService.ts`, lines 274–301): one remote call; on success
`response.text || ""`; the catch block logs and rethrows. -/
def transcribeUserAudioRun (op : Nat → Except JsError ChatResponse) : RunTrace String :=
  match op 0 with
  | .ok r => ⟨.ok (Option.getD r.text ""), 1, []⟩
  | .error e => ⟨.error e, 1, []⟩

/-- The analysis response as `generateOp` inside `analyzeDocument` reads it:
an optional `response.text` to be JSON-parsed. -/
structure GenResponse where
  text : Option String
deriving DecidableEq, Repr

/-- The operation `generateOp` that `analyzeDocument` passes to the retry
wrapper (`src/services/geminiService.ts`, lines 118–136): issue the remote
call; if `response.text` is truthy, parse it (the external `JSON.parse` plus
result typing is the parameter `parse`), otherwise throw
`"No response generated"`. -/
def generateOp {α : Type} (op : Nat → Except JsError GenResponse)
    (parse : String → Except JsError α) (n : Nat) : Except JsError α :=
  match op n with
  | .error e => .error e
  | .ok r =>
    match r.text with
    | some s => if s = "" then .error ⟨none, "No response generated"⟩ else parse s
    | none => .error ⟨none, "No response generated"⟩

/-- `analyzeDocument`'s control flow around the remote call
(`src/services/geminiService.ts`, lines 138–143): `generateOp` wrapped by
`retryOperation` at the default budget (3 retries, 1000 ms initial delay);
the outer catch logs and rethrows, so the trace is the retry trace. -/
def analyzeDocumentRun {α : Type} (op : Nat → Except JsError GenResponse)
    (parse : String → Except JsError α) : RunTrace α :=
  retryOperation (generateOp op parse) 3 1000 0

/-- The base64 alphabet used by `btoa`/`FileReader.readAsDataURL`. -/
def base64Alphabet : List Char :=
  "ABCDEFGHIJKLMNOPQRSTUVWXYZabcdefghijklmnopqrstuvwxyz0123456789+/".data

/-- The base64 digit for a 6-bit value. -/
def sixToChar (n : Nat) : Char := base64Alphabet.getD (n % 64) '='

/-- Standard base64 encoding of a byte sequence (bytes as `Nat < 256`),
3 bytes to 4 digits with `=` padding: the encoding `readAsDataURL` applies
to the file's bytes after the `data:<mime>;base64,` header. -/
def base64Encode : List Nat → List Char
  | [] => []
  | [b1] => [sixToChar (b1 / 4), sixToChar (b1 % 4 * 16), '=', '=']
  | [b1, b2] =>
      [sixToChar (b1 / 4), sixToChar (b1 % 4 * 16 + b2 / 16),
       sixToChar (b2 % 16 * 4), '=']
  | b1 :: b2 :: b3 :: rest =>
      sixToChar (b1 / 4) :: sixToChar (b1 % 4 * 16 + b2 / 16) ::
        sixToChar (b2 % 16 * 4 + b3 / 64) :: sixToChar (b3 % 64) ::
        base64Encode rest

/-- JS `s.split(',')` on a character list: the maximal comma-free segments. -/
def splitOnComma : List Char → List (List Char)
  | [] => [[]]
  | c :: rest =>
    if c = ',' then [] :: splitOnComma rest
    else
      match splitOnComma rest with
      | [] => [[c]]
      | h :: t => (c :: h) :: t

/-- The `reader.result` of `FileReader.readAsDataURL` on a file with MIME
type `mime` and byte content `bytes`: `data:<mime>;base64,<payload>`. -/
def dataURL (mime : String) (bytes : List Nat) : List Char :=
  ("data:" ++ mime ++ ";base64,").data ++ base64Encode bytes

/-- `fileToGenerativePart` (`src/services/geminiService.ts`, lines 7–19):
read the file as a data URL and keep `base64String.split(',')[1]`
(an out-of-range index is JS `undefined`, modelled by the `""` default). -/
def fileToGenerativePart (mime : String) (bytes : List Nat) : String :=
  ⟨(splitOnComma (dataURL mime bytes)).getD 1 []⟩

/-- The raw payload handed to `handleAnalyze`: a file handle (with its MIME
type and bytes) or a string. -/
inductive Payload : Type
  | file (mime : String) (bytes : List Nat)
  | str (s : String)
deriving DecidableEq, Repr

/-- The requested input discriminator (`src/types.ts`). -/
inductive DocumentInputType : Type
  | pdf
  | text
  | url
deriving DecidableEq, Repr

/-- The context-construction branch of `handleAnalyze`
(`src/unnamed/part_000`, lines 12–27): `pdf` with a file payload encodes the
file; `url`/`text` with a string payload wrap it; any other combination
throws `"Invalid input"`. -/
def handleAnalyzeContext (t : DocumentInputType) (p : Payload) :
    Except String DocumentContext :=
  match t, p with
  | .pdf, .file mime bytes => .ok (.pdf (fileToGenerativePart mime bytes))
  | .url, .str s => .ok (.url s)
  | .text, .str s => .ok (.text s)
  | _, _ => .error "Invalid input"

/-- Number of remote calls issued by `handleAnalyze` before any retries:
`analyzeDocument` is reached only when context construction succeeded;
the `"Invalid input"` throw happens before it (`src/unnamed/part_000`,
lines 14–30). -/
def handleAnalyzeRemoteCalls (t : DocumentInputType) (p : Payload) : Nat :=
  match handleAnalyzeContext t p with
  | .ok _ => 1
  | .error _ => 0

/-- Signed 16-bit little-endian interpretation of a byte pair, as an
`Int16Array` view does. -/
def toInt16 (lo hi : Nat) : Int :=
  let u := lo % 256 + 256 * (hi % 256)
  if u < 32768 then (u : Int) else (u : Int) - 65536

/-- Consecutive byte pairs of a buffer (an `Int16Array` view covers
`byteLength / 2` full elements). -/
def bytePairs : List Nat → List (Nat × Nat)
  | lo :: hi :: rest => (lo, hi) :: bytePairs rest
  | _ => []

/-- Sample conversion of `createAudioBufferFromPCM`
(`src/services/geminiService.ts`, line 54): `channelData[i] = data[i] / 32768.0`
(exact in binary floating point for 16-bit integers, so modelled in `ℚ`). -/
def pcmSampleToFloat (s : Int) : ℚ := (s : ℚ) / 32768

/-- `createAudioBufferFromPCM` (`src/services/geminiService.ts`,
lines 41–58): view the raw buffer as signed 16-bit little-endian mono
samples and divide each by 32768. -/
def createAudioBufferFromPCM (rawBuffer : List Nat) : List ℚ :=
  (bytePairs rawBuffer).map (fun p => pcmSampleToFloat (toInt16 p.1 p.2))

/-! ## Retry policy lemmas -/

theorem retryOperation_of_ok {α : Type} (op : Nat → Except JsError α)
    (retries delay start : Nat) (a : α) (h : op start = .ok a) :
    retryOperation op retries delay start = ⟨.ok a, 1, []⟩ := by
  rw [retryOperation.eq_def, h]

theorem retryOperation_zero_error {α : Type} (op : Nat → Except JsError α)
    (delay start : Nat) (e : JsError) (h : op start = .error e) :
    retryOperation op 0 delay start = ⟨.error e, 1, []⟩ := by
  rw [retryOperation.eq_def, h]

theorem retryOperation_succ_retryable {α : Type} (op : Nat → Except JsError α)
    (r delay start : Nat) (e : JsError) (he : op start = .error e)
    (hr : isRetryable e = true) :
    retryOperation op (r + 1) delay start =
      ⟨(retryOperation op r (delay * 2) (start + 1)).result,
       (retryOperation op r (delay * 2) (start + 1)).calls + 1,
       delay :: (retryOperation op r (delay * 2) (start + 1)).delays⟩ := by
  rw [retryOperation.eq_def, he]
  simp [hr]

theorem retryOperation_error_terminal {α : Type} (op : Nat → Except JsError α)
    (retries delay start : Nat) (e : JsError) (he : op start = .error e)
    (hr : isRetryable e = false) :
    retryOperation op retries delay start = ⟨.error e, 1, []⟩ := by
  rw [retryOperation.eq_def, he]
  cases retries with
  | zero => rfl
  | succ r => simp [hr]

theorem retryOperation_calls_le {α : Type} (op : Nat → Except JsError α)
    (retries delay start : Nat) :
    (retryOperation op retries delay start).calls ≤ retries + 1 := by
  induction retries generalizing delay start with
  | zero =>
    cases h : op start with
    | ok a => rw [retryOperation_of_ok op 0 delay start a h]
    | error e => rw [retryOperation_zero_error op delay start e h]
  | succ r ih =>
    cases h : op start with
    | ok a =>
      rw [retryOperation_of_ok op (r + 1) delay start a h]
      exact Nat.le_add_left 1 (r + 1)
    | error e =>
      by_cases hr : isRetryable e
      · rw [retryOperation_succ_retryable op r delay start e h hr]
        exact Nat.succ_le_succ (ih _ _)
      · rw [retryOperation_error_terminal op (r + 1) delay start e h
          (Bool.of_not_eq_true hr)]
        exact Nat.le_add_left 1 (r + 1)

theorem retryOperation_all_transient {α : Type} (op : Nat → Except JsError α)
    (retries delay start : Nat)
    (h : ∀ n, ∃ e, op n = .error e ∧ isRetryable e = true) :
    retryOperation op retries delay start =
      ⟨op (start + retries), retries + 1,
        (List.range retries).map (fun i => delay * 2 ^ i)⟩ := by
  induction retries generalizing delay start with
  | zero =>
    obtain ⟨e, he, -⟩ := h start
    rw [retryOperation_zero_error op delay start e he, Nat.add_zero, he]
    rfl
  | succ r ih =>
    obtain ⟨e, he, hr⟩ := h start
    rw [retryOperation_succ_retryable op r delay start e he hr,
      ih (delay * 2) (start + 1)]
    simp only [RunTrace.mk.injEq]
    refine ⟨by congr 1; omega, trivial, ?_⟩
    rw [List.range_succ_eq_map, List.map_cons, List.map_map]
    congr 1
    · simp
    apply List.map_congr_left
    intro i _
    simp only [Function.comp_apply, pow_succ]
    ring

theorem retryOperation_delays_prefix {α : Type} (op : Nat → Except JsError α)
    (retries delay start : Nat) :
    (retryOperation op retries delay start).delays <+:
      (List.range retries).map (fun i => delay * 2 ^ i) := by
  induction retries generalizing delay start with
  | zero =>
    cases h : op start with
    | ok a =>
      rw [retryOperation_of_ok op 0 delay start a h]
      exact List.nil_prefix
    | error e =>
      rw [retryOperation_zero_error op delay start e h]
      exact List.nil_prefix
  | succ r ih =>
    cases h : op start with
    | ok a =>
      rw [retryOperation_of_ok op (r + 1) delay start a h]
      exact List.nil_prefix
    | error e =>
      by_cases hr : isRetryable e
      · rw [retryOperation_succ_retryable op r delay start e h hr,
          List.range_succ_eq_map, List.map_cons, List.map_map]
        rw [show delay * 2 ^ 0 = delay from by ring]
        rw [List.prefix_cons_inj]
        have hmap : (List.range r).map ((fun i => delay * 2 ^ i) ∘ Nat.succ) =
            (List.range r).map (fun i => delay * 2 * 2 ^ i) := by
          apply List.map_congr_left
          intro i _
          simp only [Function.comp_apply, pow_succ]
          ring
        rw [hmap]
        exact ih (delay * 2) (start + 1)
      · rw [retryOperation_error_terminal op (r + 1) delay start e h
          (Bool.of_not_eq_true hr)]
        exact List.nil_prefix

/-- C1: for every operation wrapped by the retry policy the wrapped operation
is invoked at most `1 + retries` times, and the delays slept are always an
initial segment of the geometric schedule `delay * 2 ^ k`; at the default
budget (`retries = 3`, `delay = 1000`, multiplier 2), if every invocation
fails with a transient-classified error then exactly `1 + 3` invocations
happen, the delay before attempt `k+1` is `1000 * 2 ^ (k-1)` (the list of
slept delays is `[1000 * 2^0, 1000 * 2^1, 1000 * 2^2]`), and the last error —
the outcome of the fourth invocation — is re-raised to the caller. -/
theorem retry_policy_attempts_and_backoff :
    (∀ {α : Type} (op : Nat → Except JsError α) (retries delay start : Nat),
      (retryOperation op retries delay start).calls ≤ 1 + retries) ∧
    (∀ {α : Type} (op : Nat → Except JsError α) (retries delay start : Nat),
      (retryOperation op retries delay start).delays <+:
        (List.range retries).map (fun i => delay * 2 ^ i)) ∧
    (∀ {α : Type} (op : Nat → Except JsError α),
      (∀ n, ∃ e, op n = .error e ∧ isRetryable e = true) →
        (retryOperation op 3 1000 0).calls = 1 + 3 ∧
        (retryOperation op 3 1000 0).delays =
          [1000 * 2 ^ 0, 1000 * 2 ^ 1, 1000 * 2 ^ 2] ∧
        (retryOperation op 3 1000 0).result = op 3) := by
  refine ⟨?_, ?_, ?_⟩
  · intro α op retries delay start
    rw [Nat.add_comm]
    exact retryOperation_calls_le op retries delay start
  · intro α op retries delay start
    exact retryOperation_delays_prefix op retries delay start
  · intro α op h
    rw [retryOperation_all_transient op 3 1000 0 h]
    refine ⟨rfl, ?_, rfl⟩
    show (List.range 3).map (fun i => 1000 * 2 ^ i) =
      [1000 * 2 ^ 0, 1000 * 2 ^ 1, 1000 * 2 ^ 2]
    decide

/-- Witness for C1 at the concrete always-failing operation returning a
status-503 error: four invocations, delays 1000, 2000, 4000 ms, and the final
error re-raised. -/
theorem retry_policy_attempts_and_backoff_witness :
    (retryOperation (fun _ => (.error ⟨some 503, ""⟩ : Except JsError Unit))
        3 1000 0).calls = 1 + 3 ∧
    (retryOperation (fun _ => (.error ⟨some 503, ""⟩ : Except JsError Unit))
        3 1000 0).delays = [1000 * 2 ^ 0, 1000 * 2 ^ 1, 1000 * 2 ^ 2] ∧
    (retryOperation (fun _ => (.error ⟨some 503, ""⟩ : Except JsError Unit))
        3 1000 0).result = .error ⟨some 503, ""⟩ :=
  retry_policy_attempts_and_backoff.2.2
    (fun _ => (.error ⟨some 503, ""⟩ : Except JsError Unit))
    (fun _ => ⟨⟨some 503, ""⟩, rfl, by decide⟩)

theorem occursIn_map (f : Char → Char) (pat l : List Char)
    (h : occursIn pat l = true) : occursIn (pat.map f) (l.map f) = true := by
  induction l with
  | nil =>
    simp only [occursIn, List.isPrefixOf_iff_prefix, List.prefix_nil] at h
    simp [occursIn, h]
  | cons c rest ih =>
    simp only [occursIn, Bool.or_eq_true, List.isPrefixOf_iff_prefix] at h
    rcases h with h | h
    · have := h.map f
      simp only [List.map_cons, occursIn, Bool.or_eq_true,
        List.isPrefixOf_iff_prefix]
      exact Or.inl this
    · simp only [List.map_cons, occursIn, Bool.or_eq_true]
      exact Or.inr (ih h)

theorem strIncludes_lower_of_strIncludes (s pat : String)
    (h : strIncludes s pat = true) :
    strIncludes (lowerStr s) (lowerStr pat) = true :=
  occursIn_map Char.toLower pat.data s.data h

theorem isRetryable_eq_false (e : JsError)
    (hs500 : e.status ≠ some 500) (hs503 : e.status ≠ some 503)
    (hm500 : strIncludes e.message "500" = false)
    (hmie : strIncludes (lowerStr e.message) "internal error" = false) :
    isRetryable e = false := by
  have hIE : strIncludes e.message "Internal error" = false := by
    cases hc : strIncludes e.message "Internal error" with
    | false => rfl
    | true =>
      have h2 := strIncludes_lower_of_strIncludes e.message "Internal error" hc
      rw [show lowerStr "Internal error" = "internal error" from by decide] at h2
      rw [hmie] at h2
      exact absurd h2 (by decide)
  simp only [isRetryable, hm500, hIE, Bool.or_false, Bool.or_eq_false_iff,
    beq_eq_false_iff_ne, ne_eq]
  exact ⟨hs500, hs503⟩

/-- C2: an operation wrapped by the retry policy that fails on its first
invocation with a terminal-classified error — one carrying neither HTTP
status 500 nor 503, no `"500"` substring in its message, and no
`"internal error"` marker in its message (checked case-insensitively via
lower-casing, which covers the code's `Internal error` test) — is invoked
exactly once: the error is re-raised immediately, with no delay slept and no
retry budget consumed, at every budget `retries` and initial delay `delay`. -/
theorem retry_policy_terminal_single_invocation {α : Type}
    (op : Nat → Except JsError α) (retries delay : Nat) (e : JsError)
    (h0 : op 0 = .error e)
    (hs500 : e.status ≠ some 500) (hs503 : e.status ≠ some 503)
    (hm500 : strIncludes e.message "500" = false)
    (hmie : strIncludes (lowerStr e.message) "internal error" = false) :
    retryOperation op retries delay 0 = ⟨.error e, 1, []⟩ :=
  retryOperation_error_terminal op retries delay 0 e h0
    (isRetryable_eq_false e hs500 hs503 hm500 hmie)

/-- Witness for C2 at the concrete terminal error `"Bad request"` with no
status, at the default budget: exactly one invocation, the error re-raised,
no delays. -/
theorem retry_policy_terminal_single_invocation_witness :
    retryOperation (fun _ => (.error ⟨none, "Bad request"⟩ : Except JsError Unit))
        3 1000 0 = ⟨.error ⟨none, "Bad request"⟩, 1, []⟩ :=
  retry_policy_terminal_single_invocation
    (fun _ => (.error ⟨none, "Bad request"⟩ : Except JsError Unit))
    3 1000 ⟨none, "Bad request"⟩ rfl (by decide) (by decide) (by decide) (by decide)

/-! ## Which services pass through the retry policy (C3) -/

/-- Counterexample to C3: with a remote capability that always fails with a
transient-classified error (status 500, message "Internal error"), the
synthesis, search, transcription, and chat paths each invoke the remote
capability exactly once with no backoff delay, whereas an operation routed
through the retry policy at its default budget is invoked 4 times — so these
remote calls do not pass through the retry policy wrapper. -/
theorem services_bypass_retry_counterexample :
    (generateSpeechRun (fun _ => .error ⟨some 500, "Internal error"⟩)).calls = 1 ∧
    (generateSpeechRun (fun _ => .error ⟨some 500, "Internal error"⟩)).delays = [] ∧
    (searchRelatedTopicsRun (fun _ => .error ⟨some 500, "Internal error"⟩)).calls = 1 ∧
    (transcribeUserAudioRun (fun _ => .error ⟨some 500, "Internal error"⟩)).calls = 1 ∧
    (sendChatMessageRun (fun _ => .error ⟨some 500, "Internal error"⟩)).calls = 1 ∧
    (retryOperation (fun _ => (.error ⟨some 500, "Internal error"⟩ : Except JsError Unit))
        3 1000 0).calls = 4 ∧
    (1 : Nat) ≠ 4 := by
  refine ⟨rfl, rfl, rfl, rfl, rfl, ?_, by decide⟩
  have h := retryOperation_all_transient
    (fun _ => (.error ⟨some 500, "Internal error"⟩ : Except JsError Unit)) 3 1000 0
    (fun _ => ⟨⟨some 500, "Internal error"⟩, rfl, by decide⟩)
  rw [h]

/-- C3 (amended): only the Analysis Service's remote call passes through the
retry policy wrapper — `analyzeDocument` runs its operation under
`retryOperation` at the default budget, so its remote invocations are bounded
by `1 + 3` — while the search, synthesis, transcription, and chat paths each
invoke the remote capability exactly once per operation, regardless of how
the call fails. -/
theorem only_analysis_passes_retry_policy :
    (∀ {α : Type} (op : Nat → Except JsError GenResponse)
        (parse : String → Except JsError α),
      analyzeDocumentRun op parse = retryOperation (generateOp op parse) 3 1000 0 ∧
      (analyzeDocumentRun op parse).calls ≤ 1 + 3) ∧
    (∀ (op : Nat → Except JsError SearchResponse),
      (searchRelatedTopicsRun op).calls = 1) ∧
    (∀ (op : Nat → Except JsError TtsResponse),
      (generateSpeechRun op).calls = 1) ∧
    (∀ (op : Nat → Except JsError ChatResponse),
      (transcribeUserAudioRun op).calls = 1) ∧
    (∀ (op : Nat → Except JsError ChatResponse),
      (sendChatMessageRun op).calls = 1) := by
  refine ⟨fun op parse => ⟨rfl, ?_⟩, fun op => ?_, fun op => ?_, fun op => ?_,
    fun op => ?_⟩
  · rw [Nat.add_comm]
    exact retryOperation_calls_le (generateOp op parse) 3 1000 0
  · cases h : op 0 with
    | ok r => simp [searchRelatedTopicsRun, h]
    | error e => simp [searchRelatedTopicsRun, h]
  · cases h : op 0 with
    | ok r => cases hr : r.audioData <;> simp [generateSpeechRun, h, hr]
    | error e => simp [generateSpeechRun, h]
  · cases h : op 0 with
    | ok r => simp [transcribeUserAudioRun, h]
    | error e => simp [transcribeUserAudioRun, h]
  · cases h : op 0 with
    | ok r => simp [sendChatMessageRun, h]
    | error e => simp [sendChatMessageRun, h]

/-! ## Chat history construction (C4, C10) -/

/-- Counterexample to C4: for the text context `"ab"`, an empty real history
and the new message `"hi"`, the transmitted sequence has 3 messages, not 4;
and the seed turn's document part is not framed as in the Analysis Service,
whose framing for a text context is the raw content. -/
theorem chat_seed_count_counterexample :
    (sendChatTransmitted [] "hi" (.text "ab")).length = 3 ∧
    (sendChatTransmitted [] "hi" (.text "ab")).length ≠ 4 ∧
    (chatContextMessage (.text "ab")).parts.head? ≠
      (analyzeParts (.text "ab") "p").head? := by
  refine ⟨rfl, by decide, by decide⟩

/-- C4 (amended): for every caller-supplied history, new message, and
context variant, the transmitted sequence is exactly two synthetic seed turns
— a user-role turn carrying the document reference in the chat manager's own
per-variant framing (text content truncated to its first 30000 characters),
then the fixed model-role acknowledgment — followed by the full real history,
followed by the new user message; in particular an empty real history yields
3 total transmitted messages. -/
theorem chat_transmitted_structure (history : List Content)
    (newMessage : String) (context : DocumentContext) :
    (sendChatTransmitted history newMessage context).length =
      history.length + 3 ∧
    (sendChatTransmitted history newMessage context).take 2 =
      [⟨"user",
        match context with
        | .pdf content =>
            [Part.text "Here is the research paper to reference:",
             Part.inlineData "application/pdf" content]
        | .url content =>
            [Part.text ("Here is the URL of the research paper to reference: "
              ++ content)]
        | .text content =>
            [Part.text ("Here is the text of the research paper to reference:\n\n"
              ++ strTake content 30000)]⟩,
       ⟨"model", [Part.text "I have read the paper. How can I help you?"]⟩] ∧
    (sendChatTransmitted history newMessage context).drop 2 =
      history ++ [⟨"user", [Part.text newMessage]⟩] := by
  refine ⟨?_, ?_, rfl⟩
  · simp only [sendChatTransmitted, List.length_append, List.length_cons,
      List.length_nil]
    omega
  · cases context <;> rfl

/-- C10: for a text context, the chat seed turn — the only transmitted turn
carrying the document — contains exactly the first 30000 characters of the
content after the fixed framing header, so text beyond 30000 characters
never reaches any chat turn, even though the Analysis Service's request
carries the full content; for content of length at most 30000 the seed turn
carries the content unmodified. -/
theorem chat_text_context_truncated (content : String) (history : List Content)
    (newMessage : String) (prompt : String) :
    (sendChatTransmitted history newMessage (.text content)).head? =
      some ⟨"user",
        [Part.text ("Here is the text of the research paper to reference:\n\n"
          ++ strTake content 30000)]⟩ ∧
    (strTake content 30000).data = content.data.take 30000 ∧
    (strTake content 30000).data.length ≤ 30000 ∧
    analyzeParts (.text content) prompt = [Part.text content, Part.text prompt] ∧
    (content.data.length ≤ 30000 → strTake content 30000 = content) := by
  refine ⟨rfl, rfl, ?_, rfl, ?_⟩
  · simp only [strTake, List.length_take]
    exact min_le_left _ _
  · intro h
    simp only [strTake, List.take_of_length_le h]

/-- Witness for C10 at the three-character content `"abc"`: the seed turn
carries `"abc"` unmodified after the framing header. -/
theorem chat_text_context_truncated_witness :
    (sendChatTransmitted [] "q" (.text "abc")).head? =
      some ⟨"user",
        [Part.text ("Here is the text of the research paper to reference:\n\n"
          ++ strTake "abc" 30000)]⟩ ∧
    strTake "abc" 30000 = "abc" := by
  have h := chat_text_context_truncated "abc" [] "q" "p"
  exact ⟨h.1, h.2.2.2.2 (by decide)⟩

/-! ## Search source extraction (C5, C6) -/

/-- The extraction rule as the specification's §4.5 states it, for
comparison with the implemented `extractSources`: keep, in backend order,
only the entries that carry both a title and a URI, dropping the rest. -/
def specExtractSources (chunks : List GroundingChunk) : List SourceEntry :=
  chunks.filterMap (fun c =>
    c.web.bind (fun w =>
      match w.title, w.uri with
      | some t, some u => some ⟨some t, some u⟩
      | _, _ => none))

/-- Counterexample to C5: a grounding chunk whose `web` payload has a URI
but no title is pushed by the implemented extraction (with an absent title)
instead of being dropped as the claim states. -/
theorem search_sources_missing_title_counterexample :
    extractSources [⟨some ⟨none, some "https://example.com"⟩⟩] =
      [⟨none, some "https://example.com"⟩] ∧
    specExtractSources [⟨some ⟨none, some "https://example.com"⟩⟩] = [] ∧
    extractSources [⟨some ⟨none, some "https://example.com"⟩⟩] ≠
      specExtractSources [⟨some ⟨none, some "https://example.com"⟩⟩] := by
  refine ⟨rfl, rfl, by decide⟩

theorem extractSources_eq_filterMap (chunks : List GroundingChunk) :
    extractSources chunks =
      chunks.filterMap (fun c => c.web.map (fun w => ⟨w.title, w.uri⟩)) := by
  induction chunks with
  | nil => rfl
  | cons c rest ih =>
    cases hw : c.web with
    | some w => simp [extractSources, hw, ih]
    | none => simp [extractSources, hw, ih]

/-- C5 (amended): for every successful search response, the returned sources
list contains exactly those grounding-metadata entries that carry a `web`
payload, in the order the backend returned them, each mapped to its title and
URI as returned — either of which may be absent; entries without a `web`
payload are dropped, but entries missing only a title or only a URI are kept. -/
theorem search_sources_extraction (r : SearchResponse)
    (cs : List GroundingChunk) (h : r.chunks = some cs) :
    (searchRelatedTopicsRun (fun _ => .ok r)).result =
      .ok ⟨strOrElse r.text "No results found.",
           cs.filterMap (fun c => c.web.map (fun w => ⟨w.title, w.uri⟩))⟩ := by
  simp [searchRelatedTopicsRun, h, extractSources_eq_filterMap]

/-- Witness for C5 (amended) at a concrete response with one complete entry,
one title-less entry, and one chunk without a `web` payload. -/
theorem search_sources_extraction_witness :
    (searchRelatedTopicsRun (fun _ =>
      .ok ⟨some "found",
           some [⟨some ⟨some "T", some "https://t"⟩⟩,
                 ⟨some ⟨none, some "https://u"⟩⟩,
                 ⟨none⟩]⟩)).result =
      .ok ⟨"found", [⟨some "T", some "https://t"⟩, ⟨none, some "https://u"⟩]⟩ := by
  have h := search_sources_extraction
    ⟨some "found",
     some [⟨some ⟨some "T", some "https://t"⟩⟩,
           ⟨some ⟨none, some "https://u"⟩⟩,
           ⟨none⟩]⟩
    [⟨some ⟨some "T", some "https://t"⟩⟩,
     ⟨some ⟨none, some "https://u"⟩⟩,
     ⟨none⟩] rfl
  rw [h]
  rfl

/-- C6: if the remote call inside search fails, for any error whatsoever,
the degraded result `{text: "Search currently unavailable.", sources: []}`
is returned after exactly one invocation; and for every oracle the search
path returns a value rather than raising an error. -/
theorem search_degraded_on_failure :
    (∀ (op : Nat → Except JsError SearchResponse) (e : JsError),
      op 0 = .error e →
        searchRelatedTopicsRun op =
          ⟨.ok ⟨"Search currently unavailable.", []⟩, 1, []⟩) ∧
    (∀ (op : Nat → Except JsError SearchResponse),
      ∃ result, (searchRelatedTopicsRun op).result = .ok result) := by
  constructor
  · intro op e h
    simp [searchRelatedTopicsRun, h]
  · intro op
    cases h : op 0 with
    | ok r =>
      simp only [searchRelatedTopicsRun, h]
      exact ⟨_, rfl⟩
    | error e =>
      simp only [searchRelatedTopicsRun, h]
      exact ⟨_, rfl⟩

/-- Witness for C6 at a concrete status-400 transport failure. -/
theorem search_degraded_on_failure_witness :
    searchRelatedTopicsRun (fun _ => .error ⟨some 400, "Bad request"⟩) =
      ⟨.ok ⟨"Search currently unavailable.", []⟩, 1, []⟩ :=
  search_degraded_on_failure.1 (fun _ => .error ⟨some 400, "Bad request"⟩)
    ⟨some 400, "Bad request"⟩ rfl

/-! ## Base64 encoding and the pdf context construction (C7) -/

theorem sixToChar_mem (n : Nat) : sixToChar n ∈ base64Alphabet := by
  have hall : ∀ m, m < 64 → base64Alphabet.getD m '=' ∈ base64Alphabet := by decide
  exact hall (n % 64) (Nat.mod_lt _ (by norm_num))

theorem base64Encode_mem :
    ∀ (bs : List Nat) (c : Char), c ∈ base64Encode bs →
      c ∈ base64Alphabet ∨ c = '='
  | [], c, hc => by simp [base64Encode] at hc
  | [b1], c, hc => by
    simp only [base64Encode, List.mem_cons, List.not_mem_nil, or_false] at hc
    rcases hc with h | h | h | h
    · exact Or.inl (h ▸ sixToChar_mem _)
    · exact Or.inl (h ▸ sixToChar_mem _)
    · exact Or.inr h
    · exact Or.inr h
  | [b1, b2], c, hc => by
    simp only [base64Encode, List.mem_cons, List.not_mem_nil, or_false] at hc
    rcases hc with h | h | h | h
    · exact Or.inl (h ▸ sixToChar_mem _)
    · exact Or.inl (h ▸ sixToChar_mem _)
    · exact Or.inl (h ▸ sixToChar_mem _)
    · exact Or.inr h
  | b1 :: b2 :: b3 :: rest, c, hc => by
    simp only [base64Encode, List.mem_cons] at hc
    rcases hc with h | h | h | h | h
    · exact Or.inl (h ▸ sixToChar_mem _)
    · exact Or.inl (h ▸ sixToChar_mem _)
    · exact Or.inl (h ▸ sixToChar_mem _)
    · exact Or.inl (h ▸ sixToChar_mem _)
    · exact base64Encode_mem rest c h

theorem comma_not_mem_base64Encode (bs : List Nat) : ',' ∉ base64Encode bs := by
  intro hc
  rcases base64Encode_mem bs ',' hc with h | h
  · exact absurd h (by decide)
  · exact absurd h (by decide)

theorem colon_not_mem_base64Encode (bs : List Nat) : ':' ∉ base64Encode bs := by
  intro hc
  rcases base64Encode_mem bs ':' hc with h | h
  · exact absurd h (by decide)
  · exact absurd h (by decide)

theorem splitOnComma_no_comma (l : List Char) (h : ',' ∉ l) :
    splitOnComma l = [l] := by
  induction l with
  | nil => rfl
  | cons c rest ih =>
    have hc : ¬ c = ',' := fun hcc => h (hcc ▸ List.mem_cons_self c rest)
    have hr : ',' ∉ rest := fun hm => h (List.mem_cons_of_mem _ hm)
    simp [splitOnComma, hc, ih hr]

theorem splitOnComma_append (l₁ l₂ : List Char) (h : ',' ∉ l₁) :
    splitOnComma (l₁ ++ ',' :: l₂) = l₁ :: splitOnComma l₂ := by
  induction l₁ with
  | nil => simp [splitOnComma]
  | cons c rest ih =>
    have hc : ¬ c = ',' := fun hcc => h (hcc ▸ List.mem_cons_self c rest)
    have hr : ',' ∉ rest := fun hm => h (List.mem_cons_of_mem _ hm)
    simp [splitOnComma, hc, ih hr]

theorem fileToGenerativePart_eq (mime : String) (bytes : List Nat)
    (h : ',' ∉ mime.data) :
    fileToGenerativePart mime bytes = ⟨base64Encode bytes⟩ := by
  have hdata : dataURL mime bytes =
      ("data:".data ++ mime.data ++ ";base64".data) ++ ',' :: base64Encode bytes := by
    show ("data:" ++ mime ++ ";base64,").data ++ base64Encode bytes = _
    simp [String.data_append]
  have hpre : ',' ∉ "data:".data ++ mime.data ++ ";base64".data := by
    intro hm
    rcases List.mem_append.mp hm with hm | hm
    · rcases List.mem_append.mp hm with hm | hm
      · exact absurd hm (by decide)
      · exact h hm
    · exact absurd hm (by decide)
  unfold fileToGenerativePart
  rw [hdata, splitOnComma_append _ _ hpre,
    splitOnComma_no_comma _ (comma_not_mem_base64Encode bytes)]
  rfl

theorem dataPrefix_not_prefix_base64 (bytes : List Nat) :
    ¬ ("data:".data <+: base64Encode bytes) := by
  intro hp
  have hcolon : ':' ∈ base64Encode bytes := by
    obtain ⟨t, ht⟩ := hp
    rw [← ht]
    exact List.mem_append_left _ (by decide)
  exact colon_not_mem_base64Encode bytes hcolon

/-- C7: constructing a `DocumentContext` with discriminator `pdf` and a
non-file payload throws the `"Invalid input"` error before any remote call
is made; with a file payload (any MIME type without a comma, as
`application/pdf` is) it succeeds, and the produced base64 content is the
plain base64 encoding of the file bytes with the data-URI metadata prefix
stripped — in particular it has no `data:` prefix. -/
theorem pdf_context_construction :
    (∀ (s : String),
      handleAnalyzeContext .pdf (.str s) = .error "Invalid input" ∧
      handleAnalyzeRemoteCalls .pdf (.str s) = 0) ∧
    (∀ (mime : String) (bytes : List Nat), ',' ∉ mime.data →
      handleAnalyzeContext .pdf (.file mime bytes) =
        .ok (.pdf (fileToGenerativePart mime bytes)) ∧
      fileToGenerativePart mime bytes = ⟨base64Encode bytes⟩ ∧
      ¬ ("data:".data <+: (fileToGenerativePart mime bytes).data)) := by
  constructor
  · intro s
    exact ⟨rfl, rfl⟩
  · intro mime bytes h
    refine ⟨rfl, fileToGenerativePart_eq mime bytes h, ?_⟩
    rw [fileToGenerativePart_eq mime bytes h]
    exact dataPrefix_not_prefix_base64 bytes

/-- Witness for C7: a string payload under the `pdf` discriminator fails
with `"Invalid input"` and issues no remote call; the four bytes of a
`"%PDF"` header under MIME type `application/pdf` succeed with a prefix-free
base64 content. -/
theorem pdf_context_construction_witness :
    handleAnalyzeContext .pdf (.str "plain text") = .error "Invalid input" ∧
    handleAnalyzeRemoteCalls .pdf (.str "plain text") = 0 ∧
    handleAnalyzeContext .pdf (.file "application/pdf" [37, 80, 68, 70]) =
      .ok (.pdf (fileToGenerativePart "application/pdf" [37, 80, 68, 70])) ∧
    fileToGenerativePart "application/pdf" [37, 80, 68, 70] =
      ⟨base64Encode [37, 80, 68, 70]⟩ ∧
    ¬ ("data:".data <+:
        (fileToGenerativePart "application/pdf" [37, 80, 68, 70]).data) := by
  have h1 := pdf_context_construction.1 "plain text"
  have h2 := pdf_context_construction.2 "application/pdf" [37, 80, 68, 70]
    (by decide)
  exact ⟨h1.1, h1.2, h2.1, h2.2.1, h2.2.2⟩

/-! ## Speech synthesis input truncation (C8) -/

/-- C8: for every input string, the text part transmitted by
`generateSpeech` is exactly the first 400 characters of the input — a prefix
of the input of length at most 400 — so input beyond 400 characters is never
transmitted. -/
theorem speech_input_truncated (text : String) :
    generateSpeechParts text = [Part.text (strTake text 400)] ∧
    (strTake text 400).data = text.data.take 400 ∧
    (strTake text 400).data.length ≤ 400 ∧
    (strTake text 400).data <+: text.data := by
  refine ⟨rfl, rfl, ?_, ?_⟩
  · simp only [strTake, List.length_take]
    exact min_le_left _ _
  · exact List.take_prefix 400 text.data

/-! ## PCM decoding (C9) -/

theorem toInt16_bounds (lo hi : Nat) :
    -32768 ≤ toInt16 lo hi ∧ toInt16 lo hi ≤ 32767 := by
  unfold toInt16
  have h1 : lo % 256 < 256 := Nat.mod_lt _ (by norm_num)
  have h2 : hi % 256 < 256 := Nat.mod_lt _ (by norm_num)
  by_cases h : lo % 256 + 256 * (hi % 256) < 32768
  · simp only [h, if_true]
    omega
  · simp only [h, if_false]
    omega

theorem pcmSampleToFloat_bounds (s : Int) (h1 : -32768 ≤ s) (h2 : s ≤ 32767) :
    -1 ≤ pcmSampleToFloat s ∧ pcmSampleToFloat s ≤ 1 := by
  unfold pcmSampleToFloat
  constructor
  · rw [le_div_iff₀ (by norm_num : (0 : ℚ) < 32768)]
    have : (-32768 : ℚ) ≤ (s : ℚ) := by exact_mod_cast h1
    linarith
  · rw [div_le_one (by norm_num : (0 : ℚ) < 32768)]
    have : (s : ℚ) ≤ 32767 := by exact_mod_cast h2
    linarith

/-- C9: `createAudioBufferFromPCM` maps each signed 16-bit little-endian
sample `s` of the buffer to the rational `s / 32768`; sample `0` maps to
`0`, sample `-32768` (bytes `0x00 0x80`) to `-1`, and sample `32767`
(bytes `0xFF 0x7F`) to `32767 / 32768`, and every produced value lies in
`[-1, 1]`. -/
theorem pcm_conversion :
    (∀ (rawBuffer : List Nat),
      createAudioBufferFromPCM rawBuffer =
        (bytePairs rawBuffer).map (fun p => (toInt16 p.1 p.2 : ℚ) / 32768)) ∧
    pcmSampleToFloat 0 = 0 ∧
    pcmSampleToFloat (-32768) = -1 ∧
    pcmSampleToFloat 32767 = 32767 / 32768 ∧
    createAudioBufferFromPCM [0, 0, 0, 128, 255, 127] =
      [0, -1, 32767 / 32768] ∧
    (∀ (rawBuffer : List Nat) (q : ℚ),
      q ∈ createAudioBufferFromPCM rawBuffer → -1 ≤ q ∧ q ≤ 1) := by
  refine ⟨fun rawBuffer => rfl, by norm_num [pcmSampleToFloat],
    by norm_num [pcmSampleToFloat], by norm_num [pcmSampleToFloat],
    by norm_num [createAudioBufferFromPCM, bytePairs, toInt16, pcmSampleToFloat],
    ?_⟩
  intro rawBuffer q hq
  simp only [createAudioBufferFromPCM, List.mem_map] at hq
  obtain ⟨⟨lo, hi⟩, -, rfl⟩ := hq
  exact pcmSampleToFloat_bounds _ (toInt16_bounds lo hi).1 (toInt16_bounds lo hi).2

/-- Witness for C9: the value `-1` produced from the concrete two-byte buffer
`0x00 0x80` (sample `-32768`) lies in `[-1, 1]`. -/
theorem pcm_conversion_witness :
    -1 ≤ (-1 : ℚ) ∧ (-1 : ℚ) ≤ 1 :=
  pcm_conversion.2.2.2.2.2 [0, 128] (-1)
    (by norm_num [createAudioBufferFromPCM, bytePairs, toInt16, pcmSampleToFloat])

end Thesyn
